import Mathlib

/-!
Verification of the ALICE-RTOS core (task model, rate-monotonic scheduler,
SPSC ring buffer, system timer, kernel run loop) against its specification.

Shallow embedding conventions:
* Rust machine integers (u8 / u16 / u32 / u64 / usize) are modeled as Nat.
  Plain Rust arithmetic (a + b) is modeled as unbounded Nat addition; the only
  place the source performs explicitly wrapping arithmetic is
  SysTimer::advance (wrapping_add on u64), modeled with an explicit mod 2^64.
* f32 values (utilization, frequency, the Liu-Layland table) are modeled as
  exact rationals built from the same decimal literals as the source; the
  claims compared here have tolerances (0.001) that dwarf f32 rounding.
* A Rust fn pointer Option<TaskFn> carries no observable data beyond its
  presence, so Task.func is modeled as a Bool (true = Some function).
* A fallible array index tasks[idx] is modeled with List.getElem?; a None
  result marks the out-of-bounds panic path.
-/

namespace ALICE

/-- MAX_TASKS from task.rs: maximum tasks the kernel can manage. -/
def MAX_TASKS : Nat := 16

/-- TaskState from task.rs. -/
inductive TaskState where
  | Ready
  | Running
  | Sleeping
  | Suspended
  | Inactive
deriving DecidableEq

/-- Task descriptor from task.rs.  Priority is the u8 payload of
TaskPriority (lower = higher priority); IDLE is 255.  The name and
scratch_size fields are diagnostics with no role in any claim and are
omitted.  func is the presence of the function pointer. -/
structure Task where
  func : Bool
  priority : Nat
  period_us : Nat
  wcet_us : Nat
  state : TaskState
  next_activation : Nat
  exec_count : Nat
  deadline_misses : Nat
deriving DecidableEq

/-- Task::empty from task.rs. -/
def Task.empty : Task :=
  { func := false, priority := 255, period_us := 0, wcet_us := 0,
    state := TaskState.Inactive, next_activation := 0, exec_count := 0,
    deadline_misses := 0 }

/-- Task::is_active from task.rs: state != Inactive. -/
def Task.is_active (t : Task) : Bool :=
  decide (t.state ≠ TaskState.Inactive)

/-- Task::frequency_hz from task.rs (f32 modeled as rational). -/
def Task.frequency_hz (t : Task) : ℚ :=
  if t.period_us = 0 then 0 else 1000000 / (t.period_us : ℚ)

/-- Task::utilization from task.rs (f32 modeled as rational). -/
def Task.utilization (t : Task) : ℚ :=
  if t.period_us = 0 then 0 else (t.wcet_us : ℚ) / (t.period_us : ℚ)

/-- Scheduler from scheduler.rs.  The fixed array [Task; MAX_TASKS] is a
list; well-formed states have length MAX_TASKS (Scheduler.WF below). -/
structure Scheduler where
  tasks : List Task
  task_count : Nat
  current_task : Option Nat
  tick_us : Nat
  context_switches : Nat
deriving DecidableEq

/-- Scheduler::new from scheduler.rs. -/
def Scheduler.new : Scheduler :=
  { tasks := List.replicate MAX_TASKS Task.empty, task_count := 0,
    current_task := none, tick_us := 0, context_switches := 0 }

/-- Read of tasks[j] at an index known to be in bounds (getD with the
empty-slot default). -/
def Scheduler.taskAt (s : Scheduler) (j : Nat) : Task :=
  s.tasks.getD j Task.empty

/-- States representable by the Rust struct: the array has exactly
MAX_TASKS slots, task_count never exceeds it (register enforces this),
and every priority fits in a u8. -/
def Scheduler.WF (s : Scheduler) : Prop :=
  s.tasks.length = MAX_TASKS ∧ s.task_count ≤ MAX_TASKS ∧
    ∀ t ∈ s.tasks, t.priority ≤ 255

instance (s : Scheduler) : Decidable s.WF := by
  unfold Scheduler.WF; infer_instance

/-- Scheduler::register from scheduler.rs lines 40-49. -/
def Scheduler.register (s : Scheduler) (task : Task) : Option Nat × Scheduler :=
  if MAX_TASKS ≤ s.task_count then (none, s)
  else
    (some s.task_count,
     { s with
        tasks := s.tasks.set s.task_count { task with next_activation := s.tick_us },
        task_count := s.task_count + 1 })

/-- The loop body of scheduler.rs lines 58-64: mark index i as Ready when
it is a registered Sleeping task whose activation time has arrived.  The
list element at position j models tasks[i0 + j]. -/
def markReadyGo (tus count : Nat) : Nat → List Task → List Task
  | _, [] => []
  | i, t :: ts =>
      (if i < count ∧ t.state = TaskState.Sleeping ∧ t.next_activation ≤ tus
       then { t with state := TaskState.Ready } else t) :: markReadyGo tus count (i + 1) ts

/-- The readiness-update loop of scheduler.rs lines 58-64. -/
def markReady (tus count : Nat) (ts : List Task) : List Task :=
  markReadyGo tus count 0 ts

/-- One iteration of the selection loop in
Scheduler::find_highest_priority_ready (scheduler.rs lines 108-113):
acc carries (best_idx, best_priority). -/
def fhprStep (ts : List Task) (acc : Option Nat × Nat) (i : Nat) : Option Nat × Nat :=
  let t := ts.getD i Task.empty
  if t.state = TaskState.Ready ∧ t.priority < acc.2 then (some i, t.priority) else acc

/-- The selection loop of scheduler.rs lines 104-115, starting from
best_idx = None, best_priority = IDLE = 255. -/
def fhprFold (ts : List Task) (n : Nat) : Option Nat × Nat :=
  (List.range n).foldl (fhprStep ts) (none, 255)

/-- Scheduler::find_highest_priority_ready from scheduler.rs lines 104-115. -/
def Scheduler.find_highest_priority_ready (s : Scheduler) : Option Nat :=
  (fhprFold s.tasks s.task_count).1

/-- The scheduler state after step 1 (tick_us += delta_us) and step 2
(the readiness update) of Scheduler::tick, scheduler.rs lines 55-64. -/
def Scheduler.afterReadiness (s : Scheduler) (delta_us : Nat) : Scheduler :=
  { s with
     tick_us := s.tick_us + delta_us,
     tasks := markReady (s.tick_us + delta_us) s.task_count s.tasks }

/-- The update applied to the selected task in scheduler.rs lines 76-87:
deadline check against the old next_activation, exec_count increment,
next_activation advance by one period, final state Sleeping.  The
transient Running assignment of line 82 is immediately overwritten by
line 87 and has no observable effect. -/
def updatedTask (t : Task) (now : Nat) : Task :=
  let t1 := if t.next_activation + t.period_us < now
            then { t with deadline_misses := t.deadline_misses + 1 } else t
  { t1 with
     exec_count := t1.exec_count + 1,
     next_activation := t1.next_activation + t1.period_us,
     state := TaskState.Sleeping }

/-- Scheduler::tick from scheduler.rs lines 54-94.  In the Some branch,
current_task ends as Some idx whether or not it already was (lines 71-74),
and context_switches increments exactly when it differed. -/
def Scheduler.tick (s : Scheduler) (delta_us : Nat) : Option Nat × Scheduler :=
  let m := s.afterReadiness delta_us
  match m.find_highest_priority_ready with
  | some idx =>
      (some idx,
       { m with
          tasks := m.tasks.set idx (updatedTask (m.taskAt idx) m.tick_us),
          current_task := some idx,
          context_switches :=
            if m.current_task = some idx then m.context_switches
            else m.context_switches + 1 })
  | none => (none, { m with current_task := none })

/-- Scheduler::execute_task from scheduler.rs lines 97-101.  The source
indexes self.tasks[idx] with no bounds check; none models the
index-out-of-bounds panic, some b models a completed call that invoked
the task function iff b. -/
def Scheduler.execute_task (s : Scheduler) (idx : Nat) : Option Bool :=
  match s.tasks[idx]? with
  | none => none
  | some t => some t.func

/-- Scheduler::active_task_count from scheduler.rs lines 144-149. -/
def Scheduler.active_task_count (s : Scheduler) : Nat :=
  ((s.tasks.take s.task_count).filter (fun t => t.is_active)).length

/-- Scheduler::total_utilization from scheduler.rs lines 133-141. -/
def Scheduler.total_utilization (s : Scheduler) : ℚ :=
  (List.range s.task_count).foldl
    (fun u i => let t := s.taskAt i; if t.is_active then u + t.utilization else u) 0

/-- The BOUNDS table of liu_layland_bound, scheduler.rs lines 186-197,
with the f32 literals read as exact decimals. -/
def LL_BOUNDS : List ℚ :=
  [1.000, 1.000, 0.828, 0.780, 0.757, 0.743, 0.735, 0.729, 0.724, 0.693]

/-- liu_layland_bound from scheduler.rs lines 184-203. -/
def liu_layland_bound (n : Nat) : ℚ :=
  if n = 0 then 1 else LL_BOUNDS.getD (min n 9) 0

/-- Scheduler::is_schedulable from scheduler.rs lines 122-130. -/
def Scheduler.is_schedulable (s : Scheduler) : Bool :=
  let n := s.active_task_count
  if n = 0 then true
  else decide (s.total_utilization ≤ liu_layland_bound n)

/-- SpscRing from spsc.rs.  The const generic N is passed to each
operation; buffer is the [u32; N] array (length N for well-formed
states) and the atomic indices are plain Nat fields: every claim treated
here is about the single-threaded functional behaviour, so the
acquire/release loads and stores collapse to ordinary reads and writes. -/
structure SpscRing where
  buffer : List Nat
  write_idx : Nat
  read_idx : Nat
deriving DecidableEq

/-- SpscRing::new from spsc.rs. -/
def SpscRing.new (N : Nat) : SpscRing :=
  { buffer := List.replicate N 0, write_idx := 0, read_idx := 0 }

/-- SpscRing::push from spsc.rs lines 37-49. -/
def SpscRing.push (N : Nat) (r : SpscRing) (value : Nat) : Bool × SpscRing :=
  let write := r.write_idx
  let read := r.read_idx
  let next_write := (write + 1) % N
  if next_write = read then (false, r)
  else (true, { r with buffer := r.buffer.set write value, write_idx := next_write })

/-- SpscRing::pop from spsc.rs lines 54-66. -/
def SpscRing.pop (N : Nat) (r : SpscRing) : Option Nat × SpscRing :=
  let read := r.read_idx
  let write := r.write_idx
  if read = write then (none, r)
  else (some (r.buffer.getD read 0), { r with read_idx := (read + 1) % N })

/-- SpscRing::clear from spsc.rs lines 97-100. -/
def SpscRing.clear (r : SpscRing) : SpscRing :=
  { r with read_idx := 0, write_idx := 0 }

/-- A single-threaded producer/consumer history step for claim C5: a
push or a pop call. -/
inductive PPOp where
  | push (v : Nat)
  | pop
deriving DecidableEq

/-- Accumulated run state for claim C5: the ring plus the history of
successfully pushed and successfully popped values. -/
structure RunState where
  ring : SpscRing
  pushed : List Nat
  popped : List Nat
deriving DecidableEq

/-- Execute one push/pop call, recording successful values. -/
def ppStep (N : Nat) (st : RunState) (op : PPOp) : RunState :=
  match op with
  | PPOp.push v =>
      let out := st.ring.push N v
      { ring := out.2,
        pushed := if out.1 then st.pushed ++ [v] else st.pushed,
        popped := st.popped }
  | PPOp.pop =>
      let out := st.ring.pop N
      { ring := out.2,
        pushed := st.pushed,
        popped := match out.1 with
                  | some v => st.popped ++ [v]
                  | none => st.popped }

/-- Run a call sequence from SpscRing::new. -/
def ppRun (N : Nat) (ops : List PPOp) : RunState :=
  ops.foldl (ppStep N) { ring := SpscRing.new N, pushed := [], popped := [] }

/-- Ring operations for claim C9: push, pop, or clear. -/
inductive RingOp where
  | push (v : Nat)
  | pop
  | clear
deriving DecidableEq

/-- State transition of one ring call (result value discarded). -/
def ringStep (N : Nat) (r : SpscRing) (op : RingOp) : SpscRing :=
  match op with
  | RingOp.push v => (r.push N v).2
  | RingOp.pop => (r.pop N).2
  | RingOp.clear => r.clear

/-- Run a push/pop/clear sequence from SpscRing::new. -/
def ringRun (N : Nat) (ops : List RingOp) : SpscRing :=
  ops.foldl (ringStep N) (SpscRing.new N)

/-- The logical queue contents of the ring: buffer slots from read_idx
(cyclically) up to write_idx. -/
def ringContents (N : Nat) (r : SpscRing) : List Nat :=
  (List.range ((r.write_idx + N - r.read_idx) % N)).map
    (fun k => r.buffer.getD ((r.read_idx + k) % N) 0)

/-- 2^64, the modulus of the u64 wrapping_add in SysTimer::advance. -/
def U64_MOD : Nat := 18446744073709551616

/-- SysTimer from timer.rs. -/
structure SysTimer where
  ticks_us : Nat
  ticks_per_us : Nat
  overflows : Nat
deriving DecidableEq

/-- SysTimer::software from timer.rs. -/
def SysTimer.software : SysTimer :=
  { ticks_us := 0, ticks_per_us := 1, overflows := 0 }

/-- SysTimer::advance from timer.rs lines 43-49: u64 wrapping_add with
overflow accounting. -/
def SysTimer.advance (t : SysTimer) (us : Nat) : SysTimer :=
  let new := (t.ticks_us + us) % U64_MOD
  { t with
     ticks_us := new,
     overflows := if new < t.ticks_us then t.overflows + 1 else t.overflows }

/-- Kernel from kernel.rs.  The 1024-byte scratch buffer carries no data
observable by any claim (task functions are opaque) and is omitted. -/
structure Kernel where
  scheduler : Scheduler
  timer : SysTimer
  running : Bool
  total_ticks : Nat
deriving DecidableEq

/-- Kernel::testing from kernel.rs. -/
def Kernel.testing : Kernel :=
  { scheduler := Scheduler.new, timer := SysTimer.software,
    running := false, total_ticks := 0 }

/-- Kernel::tick from kernel.rs lines 75-87: advance the timer, count the
tick, delegate to the scheduler.  The subsequent execute_task call on the
returned index mutates only the opaque scratch buffer, so it has no
effect in this model (the returned index is < task_count, so that call
does not hit the execute_task out-of-bounds path). -/
def Kernel.tick (k : Kernel) (delta_us : Nat) : Option Nat × Kernel :=
  let timer1 := k.timer.advance delta_us
  let out := k.scheduler.tick delta_us
  (out.1,
   { scheduler := out.2, timer := timer1, running := k.running,
     total_ticks := k.total_ticks + 1 })

/-- KernelStats from kernel.rs. -/
structure KernelStats where
  total_us : Nat
  total_ticks : Nat
  tasks_executed : Nat
  context_switches : Nat
  utilization : ℚ
  schedulable : Bool
deriving DecidableEq

/-- The while loop of Kernel::run_for, kernel.rs lines 95-100, as a
fuel-indexed step function: none means the loop has not finished within
fuel iterations (so the claim that run_for terminates is the claim that
some fuel returns some).  The guard, the per-iteration tick, the
tasks_executed increment and the elapsed increment mirror the source
order; on exit the stats of lines 102-110 are built from the loop-exit
kernel state. -/
def Kernel.runForLoop : Nat → Kernel → Nat → Nat → Nat → Nat → Option (KernelStats × Kernel)
  | 0, _, _, _, _, _ => none
  | fuel + 1, k, total_us, tick_us, elapsed, tasks_executed =>
      if elapsed < total_us ∧ k.running = true then
        let out := k.tick tick_us
        Kernel.runForLoop fuel out.2 total_us tick_us (elapsed + tick_us)
          (tasks_executed + if out.1.isSome then 1 else 0)
      else
        some ({ total_us := elapsed,
                total_ticks := k.total_ticks,
                tasks_executed := tasks_executed,
                context_switches := k.scheduler.context_switches,
                utilization := k.scheduler.total_utilization,
                schedulable := k.scheduler.is_schedulable },
              { k with running := false })

/-- Kernel::run_for from kernel.rs lines 90-111: set running, then loop
from elapsed = 0, tasks_executed = 0. -/
def Kernel.run_for (k : Kernel) (total_us tick_us fuel : Nat) :
    Option (KernelStats × Kernel) :=
  Kernel.runForLoop fuel { k with running := true } total_us tick_us 0 0

/-- Spec-side definition for claim C4: the table values listed by the
claim for n = 1..8, and 0.693 for every n ≥ 9. -/
def claimTable (n : Nat) : ℚ :=
  if 9 ≤ n then 0.693
  else [0, 1.000, 0.828, 0.780, 0.757, 0.743, 0.735, 0.729, 0.724].getD n 0

/-- Invariant carried through a push/pop history: indices in range, the
backing array of length N, and the push history splitting into the pop
history followed by the current ring contents. -/
def RingInv (N : Nat) (st : RunState) : Prop :=
  st.ring.buffer.length = N ∧ st.ring.write_idx < N ∧ st.ring.read_idx < N ∧
    st.pushed = st.popped ++ ringContents N st.ring

/-! ### List helper lemmas -/

lemma getD_set_self {α : Type} (l : List α) (i : Nat) (a d : α) (h : i < l.length) :
    (l.set i a).getD i d = a := by
  induction l generalizing i with
  | nil => simp at h
  | cons x xs ih =>
      cases i with
      | zero => rfl
      | succ j =>
          have hj : j < xs.length := by simpa using h
          simpa [List.getD] using ih j hj

lemma getD_set_ne {α : Type} (l : List α) (i j : Nat) (a d : α) (h : i ≠ j) :
    (l.set i a).getD j d = l.getD j d := by
  induction l generalizing i j with
  | nil => simp [List.getD]
  | cons x xs ih =>
      cases i with
      | zero =>
          cases j with
          | zero => exact absurd rfl h
          | succ j0 => rfl
      | succ i0 =>
          cases j with
          | zero => rfl
          | succ j0 =>
              have : i0 ≠ j0 := fun he => h (by rw [he])
              simpa [List.getD] using ih i0 j0 this

lemma getD_mem {α : Type} (l : List α) (j : Nat) (d : α) (h : j < l.length) :
    l.getD j d ∈ l := by
  rw [List.getD_eq_getElem l d h]
  exact List.getElem_mem h

/-! ### Readiness-update lemmas -/

lemma markReadyGo_length (tus count : Nat) :
    ∀ (i : Nat) (ts : List Task), (markReadyGo tus count i ts).length = ts.length := by
  intro i ts
  induction ts generalizing i with
  | nil => rfl
  | cons t ts ih => simp [markReadyGo, ih]

lemma markReady_length (tus count : Nat) (ts : List Task) :
    (markReady tus count ts).length = ts.length :=
  markReadyGo_length tus count 0 ts

lemma markReadyGo_getD (tus count : Nat) :
    ∀ (ts : List Task) (i0 j : Nat),
      (markReadyGo tus count i0 ts).getD j Task.empty =
        (if j < ts.length ∧ i0 + j < count ∧
            (ts.getD j Task.empty).state = TaskState.Sleeping ∧
            (ts.getD j Task.empty).next_activation ≤ tus
         then { ts.getD j Task.empty with state := TaskState.Ready }
         else ts.getD j Task.empty) := by
  intro ts
  induction ts with
  | nil =>
      intro i0 j
      simp [markReadyGo]
  | cons t ts ih =>
      intro i0 j
      cases j with
      | zero =>
          simp only [markReadyGo, List.getD_cons_zero, List.length_cons]
          refine if_congr ?_ rfl rfl
          constructor
          · rintro ⟨h1, h2, h3⟩
            exact ⟨by omega, by omega, h2, h3⟩
          · rintro ⟨h0, h1, h2, h3⟩
            exact ⟨by omega, h2, h3⟩
      | succ j0 =>
          simp only [markReadyGo, List.getD_cons_succ, List.length_cons]
          rw [ih (i0 + 1) j0]
          refine if_congr ?_ rfl rfl
          constructor
          · rintro ⟨h1, h2, h3, h4⟩
            exact ⟨by omega, by omega, h3, h4⟩
          · rintro ⟨h1, h2, h3, h4⟩
            exact ⟨by omega, by omega, h3, h4⟩

lemma markReady_getD (tus count : Nat) (ts : List Task) (j : Nat) :
    (markReady tus count ts).getD j Task.empty =
      (if j < ts.length ∧ j < count ∧
          (ts.getD j Task.empty).state = TaskState.Sleeping ∧
          (ts.getD j Task.empty).next_activation ≤ tus
       then { ts.getD j Task.empty with state := TaskState.Ready }
       else ts.getD j Task.empty) := by
  have := markReadyGo_getD tus count ts 0 j
  simpa using this

/-! ### Selection-scan lemmas -/

lemma fhprFold_succ (ts : List Task) (n : Nat) :
    fhprFold ts (n + 1) = fhprStep ts (fhprFold ts n) n := by
  unfold fhprFold
  rw [List.range_succ, List.foldl_append]
  rfl

/-- Invariant of the find_highest_priority_ready scan: a none result
means every Ready task scanned has priority at least IDLE = 255; a some
result is a Ready task of priority below 255, minimal among the scanned
Ready tasks, and strictly below every earlier Ready task (so it is the
lowest index attaining the minimum). -/
lemma fhprFold_spec (ts : List Task) (n : Nat) :
    ((fhprFold ts n).1 = none →
        (fhprFold ts n).2 = 255 ∧
        ∀ j, j < n → (ts.getD j Task.empty).state = TaskState.Ready →
          255 ≤ (ts.getD j Task.empty).priority) ∧
    (∀ b, (fhprFold ts n).1 = some b →
        b < n ∧ (ts.getD b Task.empty).state = TaskState.Ready ∧
        (ts.getD b Task.empty).priority = (fhprFold ts n).2 ∧
        (fhprFold ts n).2 < 255 ∧
        (∀ j, j < n → (ts.getD j Task.empty).state = TaskState.Ready →
          (fhprFold ts n).2 ≤ (ts.getD j Task.empty).priority) ∧
        (∀ j, j < b → (ts.getD j Task.empty).state = TaskState.Ready →
          (fhprFold ts n).2 < (ts.getD j Task.empty).priority)) := by
  induction n with
  | zero =>
      constructor
      · intro _
        exact ⟨rfl, by intro j hj _; omega⟩
      · intro b hb
        simp [fhprFold] at hb
  | succ n ih =>
      rcases hE : fhprFold ts n with ⟨best, bp⟩
      rw [hE] at ih
      have hub : bp ≤ 255 := by
        rcases hbest : best with _ | b0
        · have := ih.1 (by simp [hbest])
          simp at this
          omega
        · have := (ih.2 b0 (by simp [hbest])).2.2.2.1
          simp at this
          omega
      rw [fhprFold_succ, hE]
      simp only [fhprStep]
      by_cases hc : (ts.getD n Task.empty).state = TaskState.Ready ∧
          (ts.getD n Task.empty).priority < bp
      · rw [if_pos hc]
        constructor
        · intro h
          exact absurd h (by simp)
        · intro b hb
          simp only at hb
          have hbn : b = n := by
            have := Option.some.inj hb
            omega
          subst hbn
          refine ⟨Nat.lt_succ_self b, hc.1, rfl, by omega, ?_, ?_⟩
          · intro j hj hr
            rcases Nat.lt_succ_iff_lt_or_eq.1 hj with hj2 | hj2
            · rcases hbest : best with _ | b0
              · have := (ih.1 (by simp [hbest])).2 j hj2 hr
                simp only
                omega
              · have := (ih.2 b0 (by simp [hbest])).2.2.2.2.1 j hj2 hr
                simp only at this ⊢
                omega
            · subst hj2
              exact le_refl _
          · intro j hj hr
            rcases hbest : best with _ | b0
            · have := (ih.1 (by simp [hbest])).2 j hj hr
              simp only
              omega
            · have := (ih.2 b0 (by simp [hbest])).2.2.2.2.1 j hj hr
              simp only at this ⊢
              omega
      · rw [if_neg hc]
        have hnotlt : (ts.getD n Task.empty).state = TaskState.Ready →
            bp ≤ (ts.getD n Task.empty).priority := by
          intro hr
          by_contra hlt
          exact hc ⟨hr, by omega⟩
        constructor
        · intro h
          simp only at h
          obtain ⟨h255, hall⟩ := ih.1 h
          simp only at h255
          refine ⟨h255, ?_⟩
          intro j hj hr
          rcases Nat.lt_succ_iff_lt_or_eq.1 hj with hj2 | hj2
          · exact hall j hj2 hr
          · subst hj2
            have := hnotlt hr
            omega
        · intro b hb
          simp only at hb
          obtain ⟨hbn, hrb, hpb, hlt255, hmin, hstrict⟩ := ih.2 b hb
          simp only at hpb hlt255 hmin hstrict ⊢
          refine ⟨by omega, hrb, hpb, hlt255, ?_, hstrict⟩
          intro j hj hr
          rcases Nat.lt_succ_iff_lt_or_eq.1 hj with hj2 | hj2
          · exact hmin j hj2 hr
          · subst hj2
            exact hnotlt hr

/-! ### Tick decomposition lemmas -/

lemma afterReadiness_taskAt (s : Scheduler) (d j : Nat) :
    (s.afterReadiness d).taskAt j =
      (if j < s.tasks.length ∧ j < s.task_count ∧
          (s.taskAt j).state = TaskState.Sleeping ∧
          (s.taskAt j).next_activation ≤ s.tick_us + d
       then { s.taskAt j with state := TaskState.Ready } else s.taskAt j) :=
  markReady_getD _ _ _ _

lemma afterReadiness_taskAt_fields (s : Scheduler) (d j : Nat) :
    ((s.afterReadiness d).taskAt j).priority = (s.taskAt j).priority ∧
    ((s.afterReadiness d).taskAt j).period_us = (s.taskAt j).period_us ∧
    ((s.afterReadiness d).taskAt j).next_activation = (s.taskAt j).next_activation ∧
    ((s.afterReadiness d).taskAt j).exec_count = (s.taskAt j).exec_count ∧
    ((s.afterReadiness d).taskAt j).deadline_misses = (s.taskAt j).deadline_misses := by
  rw [afterReadiness_taskAt]
  split <;> simp

lemma afterReadiness_tasks_length (s : Scheduler) (d : Nat) :
    (s.afterReadiness d).tasks.length = s.tasks.length :=
  markReady_length _ _ _

lemma tick_fst (s : Scheduler) (d : Nat) :
    (s.tick d).1 = (s.afterReadiness d).find_highest_priority_ready := by
  unfold Scheduler.tick
  rcases h : (s.afterReadiness d).find_highest_priority_ready with _ | idx <;> simp [h]

lemma tick_snd_some (s : Scheduler) (d idx : Nat)
    (h : (s.afterReadiness d).find_highest_priority_ready = some idx) :
    (s.tick d).2 =
      { s.afterReadiness d with
         tasks := (s.afterReadiness d).tasks.set idx
           (updatedTask ((s.afterReadiness d).taskAt idx) (s.afterReadiness d).tick_us),
         current_task := some idx,
         context_switches :=
           if (s.afterReadiness d).current_task = some idx
           then (s.afterReadiness d).context_switches
           else (s.afterReadiness d).context_switches + 1 } := by
  unfold Scheduler.tick
  simp [h]

lemma tick_snd_none (s : Scheduler) (d : Nat)
    (h : (s.afterReadiness d).find_highest_priority_ready = none) :
    (s.tick d).2 = { s.afterReadiness d with current_task := none } := by
  unfold Scheduler.tick
  simp [h]

lemma updatedTask_fields (t : Task) (now : Nat) :
    (updatedTask t now).exec_count = t.exec_count + 1 ∧
    (updatedTask t now).next_activation = t.next_activation + t.period_us ∧
    (updatedTask t now).state = TaskState.Sleeping ∧
    (updatedTask t now).deadline_misses =
      (if t.next_activation + t.period_us < now
       then t.deadline_misses + 1 else t.deadline_misses) := by
  unfold updatedTask
  split <;> simp

lemma WF_priority_le (s : Scheduler) (hwf : s.WF) (j : Nat) (hj : j < s.task_count) :
    (s.taskAt j).priority ≤ 255 := by
  obtain ⟨hlen, hcount, hprio⟩ := hwf
  exact hprio _ (getD_mem s.tasks j Task.empty (by omega))

/-- Characterization of the Some result of tick: the returned index is a
registered Ready task (after the readiness update) of priority below
255, minimal among Ready tasks, and the lowest index attaining that
minimum. -/
lemma tick_some_facts (s : Scheduler) (delta_us i : Nat) (hwf : s.WF)
    (hi : (s.tick delta_us).1 = some i) :
    i < s.task_count ∧
    ((s.afterReadiness delta_us).taskAt i).state = TaskState.Ready ∧
    ((s.afterReadiness delta_us).taskAt i).priority < 255 ∧
    (∀ j, j < s.task_count →
       ((s.afterReadiness delta_us).taskAt j).state = TaskState.Ready →
       ((s.afterReadiness delta_us).taskAt i).priority ≤
         ((s.afterReadiness delta_us).taskAt j).priority) ∧
    (∀ j, j < i →
       ((s.afterReadiness delta_us).taskAt j).state = TaskState.Ready →
       ((s.afterReadiness delta_us).taskAt i).priority <
         ((s.afterReadiness delta_us).taskAt j).priority) := by
  have hspec := fhprFold_spec (s.afterReadiness delta_us).tasks
    (s.afterReadiness delta_us).task_count
  have hmcount : (s.afterReadiness delta_us).task_count = s.task_count := rfl
  rw [tick_fst] at hi
  obtain ⟨h1, h2, h3, h4, h5, h6⟩ := hspec.2 i hi
  rw [hmcount] at h1 h5
  simp only [Scheduler.taskAt]
  refine ⟨h1, h2, ?_, ?_, ?_⟩
  · rw [h3]
    exact h4
  · intro j hj hr
    rw [h3]
    exact h5 j hj hr
  · intro j hj hr
    rw [h3]
    exact h6 j hj hr

/-! ### Claim theorems: scheduler dispatch -/

/-- C1, counterexample to the claim as stated: a scheduler whose single
registered task is Ready with priority IDLE = 255.  tick(0) returns None
and leaves the task Ready, contradicting the claim that None is returned
exactly when no registered task is Ready (and that the Ready task of
smallest priority is returned). -/
theorem C1_counterexample :
    ((({ tasks := { func := true, priority := 255, period_us := 100, wcet_us := 10,
                    state := TaskState.Ready, next_activation := 0, exec_count := 0,
                    deadline_misses := 0 } :: List.replicate 15 Task.empty,
         task_count := 1, current_task := none, tick_us := 0,
         context_switches := 0 } : Scheduler).tick 0).1 = none) ∧
    (({ tasks := { func := true, priority := 255, period_us := 100, wcet_us := 10,
                   state := TaskState.Ready, next_activation := 0, exec_count := 0,
                   deadline_misses := 0 } :: List.replicate 15 Task.empty,
        task_count := 1, current_task := none, tick_us := 0,
        context_switches := 0 } : Scheduler).taskAt 0).state = TaskState.Ready := by
  constructor
  · rfl
  · rfl

/-- C1 (amended): after the readiness update of tick (every registered
Sleeping task whose activation time has arrived becomes Ready), tick
returns Some i where i is the lowest-index Ready task of numerically
smallest priority among Ready tasks of priority below IDLE = 255; it
returns None exactly when every registered Ready task has priority 255
(in particular when none is Ready), and in the None case current_task is
cleared. -/
theorem C1_amended (s : Scheduler) (delta_us : Nat) (hwf : s.WF) :
    (∀ j, j < s.task_count →
       (s.afterReadiness delta_us).taskAt j =
         (if (s.taskAt j).state = TaskState.Sleeping ∧
             (s.taskAt j).next_activation ≤ s.tick_us + delta_us
          then { s.taskAt j with state := TaskState.Ready } else s.taskAt j)) ∧
    (∀ i, (s.tick delta_us).1 = some i →
       i < s.task_count ∧
       ((s.afterReadiness delta_us).taskAt i).state = TaskState.Ready ∧
       ((s.afterReadiness delta_us).taskAt i).priority < 255 ∧
       (∀ j, j < s.task_count →
          ((s.afterReadiness delta_us).taskAt j).state = TaskState.Ready →
          ((s.afterReadiness delta_us).taskAt i).priority ≤
            ((s.afterReadiness delta_us).taskAt j).priority) ∧
       (∀ j, j < i →
          ((s.afterReadiness delta_us).taskAt j).state = TaskState.Ready →
          ((s.afterReadiness delta_us).taskAt i).priority <
            ((s.afterReadiness delta_us).taskAt j).priority)) ∧
    ((s.tick delta_us).1 = none ↔
       ∀ j, j < s.task_count →
         ((s.afterReadiness delta_us).taskAt j).state = TaskState.Ready →
         ((s.afterReadiness delta_us).taskAt j).priority = 255) ∧
    ((s.tick delta_us).1 = none → (s.tick delta_us).2.current_task = none) := by
  obtain ⟨hlen, hcount, hprio⟩ := hwf
  have hspec := fhprFold_spec (s.afterReadiness delta_us).tasks
    (s.afterReadiness delta_us).task_count
  have hmcount : (s.afterReadiness delta_us).task_count = s.task_count := rfl
  refine ⟨?_, ?_, ?_, ?_⟩
  · intro j hj
    rw [afterReadiness_taskAt]
    refine if_congr ?_ rfl rfl
    constructor
    · rintro ⟨_, _, h3, h4⟩
      exact ⟨h3, h4⟩
    · rintro ⟨h3, h4⟩
      exact ⟨by omega, hj, h3, h4⟩
  · intro i hi
    exact tick_some_facts s delta_us i ⟨hlen, hcount, hprio⟩ hi
  · constructor
    · intro hn j hj hr
      rw [tick_fst] at hn
      simp only [Scheduler.taskAt] at hr ⊢
      have h255 := (hspec.1 hn).2 j (by omega) hr
      have hle : ((s.afterReadiness delta_us).tasks.getD j Task.empty).priority ≤ 255 := by
        have hfld := (afterReadiness_taskAt_fields s delta_us j).1
        simp only [Scheduler.taskAt] at hfld
        rw [hfld]
        exact WF_priority_le s ⟨hlen, hcount, hprio⟩ j hj
      omega
    · intro hall
      rcases hres : (s.tick delta_us).1 with _ | i
      · rfl
      · rw [tick_fst] at hres
        obtain ⟨h1, h2, h3, h4, _, _⟩ := hspec.2 i hres
        rw [hmcount] at h1
        have := hall i h1 h2
        simp only [Scheduler.taskAt] at this
        omega
  · intro hn
    rw [tick_fst] at hn
    rw [tick_snd_none s delta_us hn]

/-- C2, counterexample to the claim as stated: a Sleeping task that is due
becomes Ready inside tick and is dispatched, so tick returns Some 0 even
though task 0 was not Ready before the call. -/
theorem C2_counterexample :
    ((({ tasks := { func := true, priority := 0, period_us := 100, wcet_us := 10,
                    state := TaskState.Sleeping, next_activation := 0, exec_count := 0,
                    deadline_misses := 0 } :: List.replicate 15 Task.empty,
         task_count := 1, current_task := none, tick_us := 0,
         context_switches := 0 } : Scheduler).tick 5).1 = some 0) ∧
    (({ tasks := { func := true, priority := 0, period_us := 100, wcet_us := 10,
                   state := TaskState.Sleeping, next_activation := 0, exec_count := 0,
                   deadline_misses := 0 } :: List.replicate 15 Task.empty,
        task_count := 1, current_task := none, tick_us := 0,
        context_switches := 0 } : Scheduler).taskAt 0).state ≠ TaskState.Ready := by
  constructor
  · rfl
  · decide

/-- C2 (amended): whenever tick(delta_us) returns Some i, task i is the
minimum-priority Ready task after the readiness update (not necessarily
before the call), its exec_count increased by exactly 1, its
next_activation increased by exactly period_us, its final state is
Sleeping, and its deadline_misses increased by 1 exactly when the updated
tick_us exceeded its old next_activation + period_us. -/
theorem C2_amended (s : Scheduler) (delta_us i : Nat) (hwf : s.WF)
    (h : (s.tick delta_us).1 = some i) :
    ((s.afterReadiness delta_us).taskAt i).state = TaskState.Ready ∧
    (∀ j, j < s.task_count →
       ((s.afterReadiness delta_us).taskAt j).state = TaskState.Ready →
       ((s.afterReadiness delta_us).taskAt i).priority ≤
         ((s.afterReadiness delta_us).taskAt j).priority) ∧
    ((s.tick delta_us).2.taskAt i).exec_count = (s.taskAt i).exec_count + 1 ∧
    ((s.tick delta_us).2.taskAt i).next_activation =
      (s.taskAt i).next_activation + (s.taskAt i).period_us ∧
    ((s.tick delta_us).2.taskAt i).state = TaskState.Sleeping ∧
    ((s.tick delta_us).2.taskAt i).deadline_misses =
      (if (s.taskAt i).next_activation + (s.taskAt i).period_us < s.tick_us + delta_us
       then (s.taskAt i).deadline_misses + 1 else (s.taskAt i).deadline_misses) := by
  have hsel := tick_some_facts s delta_us i hwf h
  obtain ⟨hi, hready, _, hmin, _⟩ := hsel
  have hfind : (s.afterReadiness delta_us).find_highest_priority_ready = some i := by
    rw [← tick_fst]
    exact h
  have hsnd := tick_snd_some s delta_us i hfind
  have hilen : i < (s.afterReadiness delta_us).tasks.length := by
    rw [afterReadiness_tasks_length]
    have := hwf.1
    have := hwf.2.1
    omega
  have htaskAt : (s.tick delta_us).2.taskAt i =
      updatedTask ((s.afterReadiness delta_us).taskAt i)
        ((s.afterReadiness delta_us).tick_us) := by
    rw [hsnd]
    exact getD_set_self _ i _ _ hilen
  obtain ⟨hf1, hf2, hf3, hf4, hf5⟩ := afterReadiness_taskAt_fields s delta_us i
  obtain ⟨hu1, hu2, hu3, hu4⟩ :=
    updatedTask_fields ((s.afterReadiness delta_us).taskAt i)
      ((s.afterReadiness delta_us).tick_us)
  have hmtick : (s.afterReadiness delta_us).tick_us = s.tick_us + delta_us := rfl
  refine ⟨hready, hmin, ?_, ?_, ?_, ?_⟩
  · rw [htaskAt, hu1, hf4]
  · rw [htaskAt, hu2, hf3, hf2]
  · rw [htaskAt, hu3]
  · rw [htaskAt, hu4, hf3, hf2, hf5, hmtick]

/-- Witness for C1 at a concrete well-formed scheduler (a freshly
registered NORMAL task) and delta 0. -/
theorem C1_witness :
    ((Scheduler.new.register
        { func := true, priority := 2, period_us := 100, wcet_us := 10,
          state := TaskState.Ready, next_activation := 0, exec_count := 0,
          deadline_misses := 0 }).2).WF ∧
    (∀ i, (((Scheduler.new.register
        { func := true, priority := 2, period_us := 100, wcet_us := 10,
          state := TaskState.Ready, next_activation := 0, exec_count := 0,
          deadline_misses := 0 }).2).tick 0).1 = some i → i < 16) := by
  refine ⟨by decide, ?_⟩
  intro i hi
  have hlt := ((C1_amended (Scheduler.new.register
      { func := true, priority := 2, period_us := 100, wcet_us := 10,
        state := TaskState.Ready, next_activation := 0, exec_count := 0,
        deadline_misses := 0 }).2 0 (by decide)).2.1 i hi).1
  have hcnt : (Scheduler.new.register
      { func := true, priority := 2, period_us := 100, wcet_us := 10,
        state := TaskState.Ready, next_activation := 0, exec_count := 0,
        deadline_misses := 0 }).2.task_count = 1 := by decide
  omega

/-- Witness for C2 at the same concrete scheduler: the dispatched task
ends Sleeping. -/
theorem C2_witness :
    ((Scheduler.new.register
        { func := true, priority := 2, period_us := 100, wcet_us := 10,
          state := TaskState.Ready, next_activation := 0, exec_count := 0,
          deadline_misses := 0 }).2).WF ∧
    ((((Scheduler.new.register
        { func := true, priority := 2, period_us := 100, wcet_us := 10,
          state := TaskState.Ready, next_activation := 0, exec_count := 0,
          deadline_misses := 0 }).2).tick 0).1 = some 0) ∧
    ((((Scheduler.new.register
        { func := true, priority := 2, period_us := 100, wcet_us := 10,
          state := TaskState.Ready, next_activation := 0, exec_count := 0,
          deadline_misses := 0 }).2).tick 0).2.taskAt 0).state = TaskState.Sleeping := by
  refine ⟨by decide, by decide, ?_⟩
  exact (C2_amended (Scheduler.new.register
      { func := true, priority := 2, period_us := 100, wcet_us := 10,
        state := TaskState.Ready, next_activation := 0, exec_count := 0,
        deadline_misses := 0 }).2 0 0 (by decide) (by decide)).2.2.2.2.1

/-- C3: the claim (and §4.3 / §7 of the spec) say execute_task is a no-op
for an out-of-range index and that no core path panics, but the source
indexes self.tasks[idx] into the [Task; MAX_TASKS] array with no bounds
check, so idx = 16 panics even on a fresh scheduler (none is the panic
path of the model); an in-range index on an empty slot is a genuine
no-op (some false). -/
theorem C3_execute_task_oob :
    Scheduler.new.execute_task 16 = none ∧
    Scheduler.new.execute_task 15 = some false := by
  constructor
  · rfl
  · rfl

/-- C7: register succeeds exactly when task_count < MAX_TASKS = 16; on
success it returns the previous task_count as the index, stores the
argument with next_activation set to the current tick_us, and increments
task_count; on a full table it returns None and leaves the scheduler
unchanged. -/
theorem C7_register (s : Scheduler) (t : Task) (hwf : s.WF) :
    MAX_TASKS = 16 ∧
    ((∃ i, (s.register t).1 = some i) ↔ s.task_count < MAX_TASKS) ∧
    (∀ i, (s.register t).1 = some i → i = s.task_count) ∧
    (s.task_count < MAX_TASKS →
       (s.register t).1 = some s.task_count ∧
       (s.register t).2.taskAt s.task_count = { t with next_activation := s.tick_us } ∧
       (s.register t).2.task_count = s.task_count + 1) ∧
    (MAX_TASKS ≤ s.task_count → (s.register t).1 = none ∧ (s.register t).2 = s) := by
  have h16 : MAX_TASKS = 16 := rfl
  by_cases hfull : MAX_TASKS ≤ s.task_count
  · refine ⟨rfl, ?_, ?_, ?_, ?_⟩
    · constructor
      · rintro ⟨i, hi⟩
        simp [Scheduler.register, hfull] at hi
      · intro hlt
        omega
    · intro i hi
      simp [Scheduler.register, hfull] at hi
    · intro hlt
      omega
    · intro _
      exact ⟨by simp [Scheduler.register, hfull], by simp [Scheduler.register, hfull]⟩
  · refine ⟨rfl, ?_, ?_, ?_, ?_⟩
    · constructor
      · intro _
        omega
      · intro _
        exact ⟨s.task_count, by simp [Scheduler.register, hfull]⟩
    · intro i hi
      simp [Scheduler.register, hfull] at hi
      omega
    · intro _
      refine ⟨by simp [Scheduler.register, hfull], ?_, by simp [Scheduler.register, hfull]⟩
      simp only [Scheduler.register, hfull, if_false, Scheduler.taskAt]
      have hlen : s.task_count < s.tasks.length := by
        have := hwf.1
        omega
      simpa using getD_set_self s.tasks s.task_count
        { t with next_activation := s.tick_us } Task.empty hlen
    · intro hge
      omega

/-- Witness for C7 on a fresh scheduler and a concrete task. -/
theorem C7_witness :
    Scheduler.new.WF ∧
    Scheduler.new.task_count < MAX_TASKS ∧
    (Scheduler.new.register
      { func := true, priority := 1, period_us := 50, wcet_us := 5,
        state := TaskState.Ready, next_activation := 77, exec_count := 0,
        deadline_misses := 0 }).1 = some Scheduler.new.task_count := by
  refine ⟨by decide, by decide, ?_⟩
  exact ((C7_register Scheduler.new
    { func := true, priority := 1, period_us := 50, wcet_us := 5,
      state := TaskState.Ready, next_activation := 77, exec_count := 0,
      deadline_misses := 0 } (by decide)).2.2.2.1 (by decide)).1

/-- C8, counterexample to the claim as stated: a registered period-0 task
is not inert.  Its next_activation never advances, so it is re-marked
Ready and dispatched again on every tick: two consecutive ticks both
return Some 0. -/
theorem C8_counterexample :
    (({ tasks := { func := true, priority := 0, period_us := 0, wcet_us := 0,
                   state := TaskState.Ready, next_activation := 0, exec_count := 0,
                   deadline_misses := 0 } :: List.replicate 15 Task.empty,
        task_count := 1, current_task := none, tick_us := 0,
        context_switches := 0 } : Scheduler).taskAt 0).period_us = 0 ∧
    ((({ tasks := { func := true, priority := 0, period_us := 0, wcet_us := 0,
                    state := TaskState.Ready, next_activation := 0, exec_count := 0,
                    deadline_misses := 0 } :: List.replicate 15 Task.empty,
         task_count := 1, current_task := none, tick_us := 0,
         context_switches := 0 } : Scheduler).tick 1).1 = some 0) ∧
    (((({ tasks := { func := true, priority := 0, period_us := 0, wcet_us := 0,
                     state := TaskState.Ready, next_activation := 0, exec_count := 0,
                     deadline_misses := 0 } :: List.replicate 15 Task.empty,
          task_count := 1, current_task := none, tick_us := 0,
          context_switches := 0 } : Scheduler).tick 1).2.tick 1).1 = some 0) := by
  refine ⟨rfl, rfl, ?_⟩
  decide

/-- C8 (amended): for a task with period_us = 0, utilization() and
frequency_hz() return 0, but such a task is not inert: whenever tick
dispatches task i with period 0 and an activation time that had already
arrived, its next_activation does not advance, so the next readiness
update (any later tick) marks it Ready again and it is re-dispatched
whenever it remains the highest-priority Ready task. -/
theorem C8_amended (t : Task) (ht : t.period_us = 0) (s : Scheduler)
    (delta delta' i : Nat) (hwf : s.WF)
    (h : (s.tick delta).1 = some i)
    (hz : ((s.afterReadiness delta).taskAt i).period_us = 0)
    (hdue : ((s.afterReadiness delta).taskAt i).next_activation ≤ s.tick_us + delta) :
    t.utilization = 0 ∧ t.frequency_hz = 0 ∧
    (((s.tick delta).2.afterReadiness delta').taskAt i).state = TaskState.Ready := by
  refine ⟨by simp [Task.utilization, ht], by simp [Task.frequency_hz, ht], ?_⟩
  have hfind : (s.afterReadiness delta).find_highest_priority_ready = some i := by
    rw [← tick_fst]
    exact h
  have hsel := (fhprFold_spec (s.afterReadiness delta).tasks
    (s.afterReadiness delta).task_count).2 i hfind
  have hi : i < s.task_count := hsel.1
  have hsnd := tick_snd_some s delta i hfind
  have hilen : i < (s.afterReadiness delta).tasks.length := by
    rw [afterReadiness_tasks_length]
    have := hwf.1
    have := hwf.2.1
    omega
  have htaskAt : (s.tick delta).2.taskAt i =
      updatedTask ((s.afterReadiness delta).taskAt i)
        ((s.afterReadiness delta).tick_us) := by
    rw [hsnd]
    exact getD_set_self _ i _ _ hilen
  obtain ⟨hu1, hu2, hu3, hu4⟩ :=
    updatedTask_fields ((s.afterReadiness delta).taskAt i)
      ((s.afterReadiness delta).tick_us)
  have hcount2 : (s.tick delta).2.task_count = s.task_count := by
    rw [hsnd]
    rfl
  have hlen2 : (s.tick delta).2.tasks.length = s.tasks.length := by
    rw [hsnd]
    simpa [List.length_set] using afterReadiness_tasks_length s delta
  have htick2 : (s.tick delta).2.tick_us = s.tick_us + delta := by
    rw [hsnd]
    rfl
  have hcond : i < (s.tick delta).2.tasks.length ∧ i < (s.tick delta).2.task_count ∧
      ((s.tick delta).2.taskAt i).state = TaskState.Sleeping ∧
      ((s.tick delta).2.taskAt i).next_activation ≤ (s.tick delta).2.tick_us + delta' := by
    refine ⟨?_, ?_, ?_, ?_⟩
    · rw [hlen2]
      have := hwf.1
      have := hwf.2.1
      omega
    · rw [hcount2]
      exact hi
    · rw [htaskAt, hu3]
    · rw [htaskAt, hu2, hz, htick2]
      omega
  rw [afterReadiness_taskAt, if_pos hcond]

/-- Witness for C8 at a concrete scheduler with a registered period-0
task, two ticks of 1µs each. -/
theorem C8_witness :
    ({ tasks := { func := true, priority := 0, period_us := 0, wcet_us := 0,
                  state := TaskState.Ready, next_activation := 0, exec_count := 0,
                  deadline_misses := 0 } :: List.replicate 15 Task.empty,
       task_count := 1, current_task := none, tick_us := 0,
       context_switches := 0 } : Scheduler).WF ∧
    ((({ tasks := { func := true, priority := 0, period_us := 0, wcet_us := 0,
                    state := TaskState.Ready, next_activation := 0, exec_count := 0,
                    deadline_misses := 0 } :: List.replicate 15 Task.empty,
         task_count := 1, current_task := none, tick_us := 0,
         context_switches := 0 } : Scheduler).tick 1).1 = some 0) ∧
    (((({ tasks := { func := true, priority := 0, period_us := 0, wcet_us := 0,
                     state := TaskState.Ready, next_activation := 0, exec_count := 0,
                     deadline_misses := 0 } :: List.replicate 15 Task.empty,
          task_count := 1, current_task := none, tick_us := 0,
          context_switches := 0 } : Scheduler).tick 1).2.afterReadiness 1).taskAt 0).state
      = TaskState.Ready := by
  refine ⟨by decide, by decide, ?_⟩
  exact (C8_amended
    { func := true, priority := 0, period_us := 0, wcet_us := 0,
      state := TaskState.Ready, next_activation := 0, exec_count := 0,
      deadline_misses := 0 } rfl
    { tasks := { func := true, priority := 0, period_us := 0, wcet_us := 0,
                 state := TaskState.Ready, next_activation := 0, exec_count := 0,
                 deadline_misses := 0 } :: List.replicate 15 Task.empty,
      task_count := 1, current_task := none, tick_us := 0,
      context_switches := 0 } 1 1 0 (by decide) (by decide) (by decide) (by decide)).2.2

/-! ### Liu-Layland bound accuracy lemmas -/

lemma two_rpow_inv_pow (n : Nat) (hn : n ≠ 0) :
    ((2 : ℝ) ^ ((n : ℝ)⁻¹)) ^ n = 2 := by
  rw [← Real.rpow_natCast ((2 : ℝ) ^ ((n : ℝ)⁻¹)) n,
      ← Real.rpow_mul (by norm_num : (0 : ℝ) ≤ 2),
      inv_mul_cancel₀ (Nat.cast_ne_zero.mpr hn), Real.rpow_one]

lemma rpow_bounds (n : Nat) (hn : n ≠ 0) (a b : ℝ) (ha : 0 ≤ a) (hb : 0 ≤ b)
    (h2a : a ^ n ≤ 2) (h2b : 2 ≤ b ^ n) :
    a ≤ (2 : ℝ) ^ ((n : ℝ)⁻¹) ∧ (2 : ℝ) ^ ((n : ℝ)⁻¹) ≤ b := by
  have hy : (0 : ℝ) < (2 : ℝ) ^ ((n : ℝ)⁻¹) := Real.rpow_pos_of_pos (by norm_num) _
  have hyn := two_rpow_inv_pow n hn
  constructor
  · have h := h2a.trans_eq hyn.symm
    exact (pow_le_pow_iff_left₀ ha hy.le hn).1 h
  · exact (pow_le_pow_iff_left₀ hy.le hb hn).1 (hyn.le.trans h2b)

lemma LL_abs_bound (n : Nat) (hn : n ≠ 0) (q a b : ℝ)
    (ha : 0 ≤ a) (hb : 0 ≤ b) (h2a : a ^ n ≤ 2) (h2b : 2 ≤ b ^ n)
    (hlo : q - 0.001 ≤ (n : ℝ) * (a - 1)) (hhi : (n : ℝ) * (b - 1) ≤ q + 0.001) :
    |q - (n : ℝ) * ((2 : ℝ) ^ ((n : ℝ)⁻¹) - 1)| ≤ 0.001 := by
  obtain ⟨hya, hyb⟩ := rpow_bounds n hn a b ha hb h2a h2b
  have hnn : (0 : ℝ) ≤ (n : ℝ) := Nat.cast_nonneg n
  have h1 : (n : ℝ) * a ≤ (n : ℝ) * ((2 : ℝ) ^ ((n : ℝ)⁻¹)) :=
    mul_le_mul_of_nonneg_left hya hnn
  have h2 : (n : ℝ) * ((2 : ℝ) ^ ((n : ℝ)⁻¹)) ≤ (n : ℝ) * b :=
    mul_le_mul_of_nonneg_left hyb hnn
  rw [abs_le]
  constructor
  · nlinarith
  · nlinarith

/-- C4: is_schedulable returns true iff active_task_count is 0 or
total_utilization is at most the table bound at n = active_task_count;
the table holds the claimed values 1.000, 0.828, 0.780, 0.757, 0.743,
0.735, 0.729, 0.724 for n = 1..8 and 0.693 for every n ≥ 9; and each
value is within 0.001 of the Liu-Layland reference n * (2^(1/n) - 1)
(0.693 for n ≥ 9). -/
theorem C4_is_schedulable (s : Scheduler) (n : Nat) (hn : 1 ≤ n) :
    (s.is_schedulable = true ↔
       (s.active_task_count = 0 ∨
        s.total_utilization ≤ liu_layland_bound s.active_task_count)) ∧
    liu_layland_bound n = claimTable n ∧
    |((liu_layland_bound n : ℚ) : ℝ) -
        (if 9 ≤ n then (0.693 : ℝ)
         else (n : ℝ) * ((2 : ℝ) ^ ((n : ℝ)⁻¹) - 1))| ≤ 0.001 := by
  have htab : liu_layland_bound n = claimTable n := by
    by_cases h9 : 9 ≤ n
    · have hn0 : ¬ n = 0 := by omega
      have hmin : min n 9 = 9 := by omega
      rw [liu_layland_bound, claimTable, if_neg hn0, if_pos h9, hmin]
      rfl
    · have hlt : n < 9 := by omega
      interval_cases n <;> rfl
  refine ⟨?_, htab, ?_⟩
  · unfold Scheduler.is_schedulable
    by_cases h0 : s.active_task_count = 0
    · simp [h0]
    · simp [h0]
  · by_cases h9 : 9 ≤ n
    · have hq : ((liu_layland_bound n : ℚ) : ℝ) = 0.693 := by
        rw [htab, claimTable, if_pos h9]
        norm_num
      rw [hq, if_pos h9]
      norm_num
    · have hlt : n < 9 := by omega
      rw [if_neg h9]
      interval_cases n
      · rw [show ((liu_layland_bound 1 : ℚ) : ℝ) = 1.000 from by norm_num [liu_layland_bound, LL_BOUNDS]]
        exact LL_abs_bound 1 (by norm_num) 1.000 1.9999 2 (by norm_num) (by norm_num)
          (by norm_num) (by norm_num) (by norm_num) (by norm_num)
      · rw [show ((liu_layland_bound 2 : ℚ) : ℝ) = 0.828 from by norm_num [liu_layland_bound, LL_BOUNDS]]
        exact LL_abs_bound 2 (by norm_num) 0.828 1.41421 1.41422 (by norm_num) (by norm_num)
          (by norm_num) (by norm_num) (by norm_num) (by norm_num)
      · rw [show ((liu_layland_bound 3 : ℚ) : ℝ) = 0.780 from by norm_num [liu_layland_bound, LL_BOUNDS]]
        exact LL_abs_bound 3 (by norm_num) 0.780 1.2599 1.2600 (by norm_num) (by norm_num)
          (by norm_num) (by norm_num) (by norm_num) (by norm_num)
      · rw [show ((liu_layland_bound 4 : ℚ) : ℝ) = 0.757 from by norm_num [liu_layland_bound, LL_BOUNDS]]
        exact LL_abs_bound 4 (by norm_num) 0.757 1.1892 1.1893 (by norm_num) (by norm_num)
          (by norm_num) (by norm_num) (by norm_num) (by norm_num)
      · rw [show ((liu_layland_bound 5 : ℚ) : ℝ) = 0.743 from by norm_num [liu_layland_bound, LL_BOUNDS]]
        exact LL_abs_bound 5 (by norm_num) 0.743 1.14869 1.14870 (by norm_num) (by norm_num)
          (by norm_num) (by norm_num) (by norm_num) (by norm_num)
      · rw [show ((liu_layland_bound 6 : ℚ) : ℝ) = 0.735 from by norm_num [liu_layland_bound, LL_BOUNDS]]
        exact LL_abs_bound 6 (by norm_num) 0.735 1.12246 1.12247 (by norm_num) (by norm_num)
          (by norm_num) (by norm_num) (by norm_num) (by norm_num)
      · rw [show ((liu_layland_bound 7 : ℚ) : ℝ) = 0.729 from by norm_num [liu_layland_bound, LL_BOUNDS]]
        exact LL_abs_bound 7 (by norm_num) 0.729 1.10408 1.10410 (by norm_num) (by norm_num)
          (by norm_num) (by norm_num) (by norm_num) (by norm_num)
      · rw [show ((liu_layland_bound 8 : ℚ) : ℝ) = 0.724 from by norm_num [liu_layland_bound, LL_BOUNDS]]
        exact LL_abs_bound 8 (by norm_num) 0.724 1.09050 1.09052 (by norm_num) (by norm_num)
          (by norm_num) (by norm_num) (by norm_num) (by norm_num)

/-- Witness for C4 at the empty scheduler and n = 3. -/
theorem C4_witness :
    1 ≤ 3 ∧
    (Scheduler.new.is_schedulable = true ↔
       (Scheduler.new.active_task_count = 0 ∨
        Scheduler.new.total_utilization ≤
          liu_layland_bound Scheduler.new.active_task_count)) := by
  exact ⟨by norm_num, (C4_is_schedulable Scheduler.new 3 (by norm_num)).1⟩

/-! ### Ring-buffer index arithmetic -/

lemma read_add_len (N w r : Nat) (hw : w < N) (hr : r < N) :
    (r + (w + N - r) % N) % N = w := by
  rcases le_or_lt r w with h | h
  · have h2 : (w + N - r) % N = w - r := by
      rw [show w + N - r = (w - r) + N from by omega, Nat.add_mod_right,
          Nat.mod_eq_of_lt (by omega)]
    rw [h2, show r + (w - r) = w from by omega, Nat.mod_eq_of_lt hw]
  · have h2 : (w + N - r) % N = w + N - r := Nat.mod_eq_of_lt (by omega)
    rw [h2, show r + (w + N - r) = w + N from by omega, Nat.add_mod_right,
        Nat.mod_eq_of_lt hw]

lemma len_after_push (N w r : Nat) (hw : w < N) (hr : r < N)
    (hne : (w + 1) % N ≠ r) :
    ((w + 1) % N + N - r) % N = (w + N - r) % N + 1 := by
  rcases Nat.lt_or_ge (w + 1) N with h | h
  · rw [Nat.mod_eq_of_lt h]
    rcases le_or_lt r w with h2 | h2
    · rw [show w + 1 + N - r = (w + 1 - r) + N from by omega, Nat.add_mod_right,
          Nat.mod_eq_of_lt (by omega),
          show w + N - r = (w - r) + N from by omega, Nat.add_mod_right,
          Nat.mod_eq_of_lt (by omega)]
      omega
    · have hne2 : w + 1 ≠ r := by
        intro he
        exact hne (by rw [Nat.mod_eq_of_lt h, he])
      rw [Nat.mod_eq_of_lt (by omega), Nat.mod_eq_of_lt (by omega)]
      omega
  · have hwN : w + 1 = N := by omega
    have hmod : (w + 1) % N = 0 := by rw [hwN, Nat.mod_self]
    rw [hmod] at hne ⊢
    have hr0 : 0 < r := by omega
    rw [Nat.zero_add, Nat.mod_eq_of_lt (by omega),
        show w + N - r = (w - r) + N from by omega, Nat.add_mod_right,
        Nat.mod_eq_of_lt (by omega)]
    omega

lemma len_after_pop (N w r : Nat) (hw : w < N) (hr : r < N) (hne : r ≠ w) :
    (w + N - (r + 1) % N) % N = (w + N - r) % N - 1 := by
  rcases Nat.lt_or_ge (r + 1) N with h | h
  · rw [Nat.mod_eq_of_lt h]
    rcases Nat.lt_or_ge r w with h2 | h2
    · rw [show w + N - (r + 1) = (w - r - 1) + N from by omega, Nat.add_mod_right,
          Nat.mod_eq_of_lt (by omega),
          show w + N - r = (w - r) + N from by omega, Nat.add_mod_right,
          Nat.mod_eq_of_lt (by omega)]
    · have h3 : w < r := by omega
      rw [Nat.mod_eq_of_lt (by omega), Nat.mod_eq_of_lt (by omega)]
      omega
  · have hrN : r + 1 = N := by omega
    have hmod : (r + 1) % N = 0 := by rw [hrN, Nat.mod_self]
    have hwr : w < r := by omega
    rw [hmod, Nat.sub_zero, Nat.add_mod_right, Nat.mod_eq_of_lt hw,
        Nat.mod_eq_of_lt (by omega)]
    omega

lemma slot_ne_write (N w r k : Nat) (hw : w < N) (hr : r < N)
    (hk : k < (w + N - r) % N) : (r + k) % N ≠ w := by
  intro he
  have hlN : (w + N - r) % N < N := Nat.mod_lt _ (by omega)
  have h2 : (r + (w + N - r) % N) % N = w := read_add_len N w r hw hr
  have h3 : (r + k) % N = (r + (w + N - r) % N) % N := by rw [he, h2]
  have h4 : k % N = ((w + N - r) % N) % N := Nat.ModEq.add_left_cancel' r h3
  rw [Nat.mod_eq_of_lt (by omega), Nat.mod_eq_of_lt (by omega)] at h4
  omega

/-! ### Ring-contents lemmas -/

lemma ringContents_push (N : Nat) (r : SpscRing) (v : Nat)
    (hlen : r.buffer.length = N) (hw : r.write_idx < N) (hr : r.read_idx < N)
    (hne : (r.write_idx + 1) % N ≠ r.read_idx) :
    ringContents N { r with buffer := r.buffer.set r.write_idx v,
                            write_idx := (r.write_idx + 1) % N } =
      ringContents N r ++ [v] := by
  unfold ringContents
  dsimp only
  rw [len_after_push N r.write_idx r.read_idx hw hr hne]
  rw [List.range_succ, List.map_append]
  congr 1
  · apply List.map_congr_left
    intro k hk
    have hk2 : k < (r.write_idx + N - r.read_idx) % N := List.mem_range.1 hk
    have hne2 : (r.read_idx + k) % N ≠ r.write_idx :=
      slot_ne_write N r.write_idx r.read_idx k hw hr hk2
    exact getD_set_ne r.buffer r.write_idx ((r.read_idx + k) % N) v 0
      (fun he => hne2 he.symm)
  · simp only [List.map_cons, List.map_nil]
    rw [read_add_len N r.write_idx r.read_idx hw hr]
    rw [getD_set_self r.buffer r.write_idx v 0 (by omega)]

lemma ringContents_pop (N : Nat) (r : SpscRing)
    (hlen : r.buffer.length = N) (hw : r.write_idx < N) (hr : r.read_idx < N)
    (hne : r.read_idx ≠ r.write_idx) :
    ringContents N r =
      r.buffer.getD r.read_idx 0 ::
        ringContents N { r with read_idx := (r.read_idx + 1) % N } := by
  unfold ringContents
  dsimp only
  rw [len_after_pop N r.write_idx r.read_idx hw hr hne]
  have hl1 : 1 ≤ (r.write_idx + N - r.read_idx) % N := by
    by_contra h0
    have hl0 : (r.write_idx + N - r.read_idx) % N = 0 := by omega
    have h2 := read_add_len N r.write_idx r.read_idx hw hr
    rw [hl0, Nat.add_zero, Nat.mod_eq_of_lt hr] at h2
    exact hne h2
  obtain ⟨m, hm⟩ : ∃ m, (r.write_idx + N - r.read_idx) % N = m + 1 :=
    ⟨(r.write_idx + N - r.read_idx) % N - 1, by omega⟩
  rw [hm]
  simp only [Nat.add_sub_cancel]
  rw [List.range_succ_eq_map, List.map_cons, List.map_map]
  congr 1
  · rw [Nat.add_zero, Nat.mod_eq_of_lt hr]
  · apply List.map_congr_left
    intro k hk
    simp only [Function.comp]
    rw [Nat.mod_add_mod, show r.read_idx + 1 + k = r.read_idx + (k + 1) from by omega]

/-! ### Push/pop step equations -/

lemma ppStep_push_full (N : Nat) (st : RunState) (v : Nat)
    (hfull : (st.ring.write_idx + 1) % N = st.ring.read_idx) :
    ppStep N st (PPOp.push v) = st := by
  simp [ppStep, SpscRing.push, hfull]

lemma ppStep_push_ok (N : Nat) (st : RunState) (v : Nat)
    (hok : (st.ring.write_idx + 1) % N ≠ st.ring.read_idx) :
    ppStep N st (PPOp.push v) =
      { ring := { st.ring with
                    buffer := st.ring.buffer.set st.ring.write_idx v,
                    write_idx := (st.ring.write_idx + 1) % N },
        pushed := st.pushed ++ [v], popped := st.popped } := by
  simp [ppStep, SpscRing.push, hok]

lemma ppStep_pop_empty (N : Nat) (st : RunState)
    (he : st.ring.read_idx = st.ring.write_idx) :
    ppStep N st PPOp.pop = st := by
  simp [ppStep, SpscRing.pop, he]

lemma ppStep_pop_ok (N : Nat) (st : RunState)
    (hne : st.ring.read_idx ≠ st.ring.write_idx) :
    ppStep N st PPOp.pop =
      { ring := { st.ring with read_idx := (st.ring.read_idx + 1) % N },
        pushed := st.pushed,
        popped := st.popped ++ [st.ring.buffer.getD st.ring.read_idx 0] } := by
  simp [ppStep, SpscRing.pop, hne]

/-! ### Ring invariant preservation -/

lemma RingInv_step (N : Nat) (hN : 1 ≤ N) (st : RunState) (op : PPOp)
    (h : RingInv N st) : RingInv N (ppStep N st op) := by
  obtain ⟨h1, h2, h3, h4⟩ := h
  cases op with
  | push v =>
      by_cases hfull : (st.ring.write_idx + 1) % N = st.ring.read_idx
      · rw [ppStep_push_full N st v hfull]
        exact ⟨h1, h2, h3, h4⟩
      · rw [ppStep_push_ok N st v hfull]
        refine ⟨by simp [List.length_set, h1], Nat.mod_lt _ (by omega), h3, ?_⟩
        dsimp only
        rw [ringContents_push N st.ring v h1 h2 h3 hfull, h4, List.append_assoc]
  | pop =>
      by_cases he : st.ring.read_idx = st.ring.write_idx
      · rw [ppStep_pop_empty N st he]
        exact ⟨h1, h2, h3, h4⟩
      · rw [ppStep_pop_ok N st he]
        refine ⟨h1, h2, Nat.mod_lt _ (by omega), ?_⟩
        dsimp only
        rw [h4, ringContents_pop N st.ring h1 h2 h3 he]
        simp

lemma RingInv_run (N : Nat) (hN : 1 ≤ N) (ops : List PPOp) :
    ∀ st : RunState, RingInv N st → RingInv N (ops.foldl (ppStep N) st) := by
  induction ops with
  | nil => intro st h; exact h
  | cons op ops ih =>
      intro st h
      exact ih _ (RingInv_step N hN st op h)

lemma RingInv_init (N : Nat) (hN : 1 ≤ N) :
    RingInv N { ring := SpscRing.new N, pushed := [], popped := [] } := by
  refine ⟨by simp [SpscRing.new], ?_, ?_, ?_⟩
  · show 0 < N
    omega
  · show 0 < N
    omega
  · unfold ringContents SpscRing.new
    simp

/-! ### Claim theorems: SPSC ring -/

/-- C5: for every capacity parameter N ≥ 1 and every push/pop call
sequence from new(), the successfully popped values form a prefix (in
order) of the successfully pushed values. -/
theorem C5_fifo (N : Nat) (hN : 1 ≤ N) (ops : List PPOp) :
    ∃ rest, (ppRun N ops).popped ++ rest = (ppRun N ops).pushed := by
  have h := RingInv_run N hN ops _ (RingInv_init N hN)
  exact ⟨ringContents N (ppRun N ops).ring, h.2.2.2.symm⟩

/-- Witness for C5: a concrete push/pop interleaving on a ring of
parameter 2. -/
theorem C5_witness :
    1 ≤ 2 ∧
    (∃ rest, (ppRun 2 [PPOp.push 7, PPOp.pop, PPOp.push 9]).popped ++ rest =
      (ppRun 2 [PPOp.push 7, PPOp.pop, PPOp.push 9]).pushed) :=
  ⟨by norm_num, C5_fifo 2 (by norm_num) [PPOp.push 7, PPOp.pop, PPOp.push 9]⟩

lemma ringIdx_step (N : Nat) (hN : 1 ≤ N) (r : SpscRing) (op : RingOp)
    (h : r.buffer.length = N ∧ r.write_idx < N ∧ r.read_idx < N) :
    (ringStep N r op).buffer.length = N ∧ (ringStep N r op).write_idx < N ∧
      (ringStep N r op).read_idx < N := by
  obtain ⟨h1, h2, h3⟩ := h
  cases op with
  | push v =>
      by_cases hfull : (r.write_idx + 1) % N = r.read_idx
      · have hstep : ringStep N r (RingOp.push v) = r := by
          simp [ringStep, SpscRing.push, hfull]
        rw [hstep]
        exact ⟨h1, h2, h3⟩
      · have hstep : ringStep N r (RingOp.push v) =
            { r with buffer := r.buffer.set r.write_idx v,
                     write_idx := (r.write_idx + 1) % N } := by
          simp [ringStep, SpscRing.push, hfull]
        rw [hstep]
        exact ⟨by simp [List.length_set, h1], Nat.mod_lt _ (by omega), h3⟩
  | pop =>
      by_cases he : r.read_idx = r.write_idx
      · have hstep : ringStep N r RingOp.pop = r := by
          simp [ringStep, SpscRing.pop, he]
        rw [hstep]
        exact ⟨h1, h2, h3⟩
      · have hstep : ringStep N r RingOp.pop =
            { r with read_idx := (r.read_idx + 1) % N } := by
          simp [ringStep, SpscRing.pop, he]
        rw [hstep]
        exact ⟨h1, h2, Nat.mod_lt _ (by omega)⟩
  | clear =>
      refine ⟨h1, ?_, ?_⟩
      · show 0 < N
        omega
      · show 0 < N
        omega

lemma ringIdx_run (N : Nat) (hN : 1 ≤ N) (ops : List RingOp) :
    ∀ r : SpscRing, r.buffer.length = N ∧ r.write_idx < N ∧ r.read_idx < N →
      (ops.foldl (ringStep N) r).buffer.length = N ∧
      (ops.foldl (ringStep N) r).write_idx < N ∧
      (ops.foldl (ringStep N) r).read_idx < N := by
  induction ops with
  | nil => intro r h; exact h
  | cons op ops ih =>
      intro r h
      exact ih _ (ringIdx_step N hN r op h)

/-- C9: through any sequence of push, pop, and clear calls from new() on
a ring of capacity parameter N ≥ 1, both indices stay in 0..N and the
backing array keeps length N, so the accesses buffer[write] in push and
buffer[read] in pop are in bounds and neither operation panics. -/
theorem C9_indices (N : Nat) (hN : 1 ≤ N) (ops : List RingOp) :
    (ringRun N ops).buffer.length = N ∧
    (ringRun N ops).write_idx < N ∧
    (ringRun N ops).read_idx < N ∧
    (ringRun N ops).write_idx < (ringRun N ops).buffer.length ∧
    (ringRun N ops).read_idx < (ringRun N ops).buffer.length := by
  have h := ringIdx_run N hN ops (SpscRing.new N)
    ⟨by simp [SpscRing.new], by show 0 < N; omega, by show 0 < N; omega⟩
  have e : ringRun N ops = ops.foldl (ringStep N) (SpscRing.new N) := rfl
  rw [e]
  exact ⟨h.1, h.2.1, h.2.2, by omega, by omega⟩

/-- Witness for C9: a concrete push/pop/clear interleaving on a ring of
parameter 2. -/
theorem C9_witness :
    1 ≤ 2 ∧
    (ringRun 2 [RingOp.push 7, RingOp.pop, RingOp.clear, RingOp.push 3]).write_idx < 2 :=
  ⟨by norm_num,
   (C9_indices 2 (by norm_num) [RingOp.push 7, RingOp.pop, RingOp.clear, RingOp.push 3]).2.1⟩

/-! ### Kernel run-loop lemmas -/

lemma Kernel_tick_running (k : Kernel) (d : Nat) : ((k.tick d).2).running = k.running :=
  rfl

lemma Kernel_tick_total_ticks (k : Kernel) (d : Nat) :
    ((k.tick d).2).total_ticks = k.total_ticks + 1 :=
  rfl

lemma Kernel_tick_timer (k : Kernel) (d : Nat) :
    ((k.tick d).2).timer.ticks_us = (k.timer.ticks_us + d) % U64_MOD :=
  rfl

/-- With tick_us = 0 the loop guard never becomes false: elapsed stays
fixed and nothing in Kernel::tick clears running. -/
lemma runForLoop_zero_tick (total : Nat) :
    ∀ (fuel : Nat) (k : Kernel) (e te : Nat), k.running = true → e < total →
      Kernel.runForLoop fuel k total 0 e te = none := by
  intro fuel
  induction fuel with
  | zero =>
      intro k e te hr he
      rfl
  | succ fuel ih =>
      intro k e te hr he
      unfold Kernel.runForLoop
      rw [if_pos ⟨he, hr⟩]
      have hr2 : ((k.tick 0).2).running = true := by
        rw [Kernel_tick_running]
        exact hr
      exact ih (k.tick 0).2 (e + 0) _ hr2 (by omega)

/-- With tick_us ≥ 1, fuel total ≤ e + fuel * tick suffices and the loop
exits with elapsed at least the budget. -/
lemma runForLoop_term (total tick : Nat) :
    ∀ (fuel : Nat) (k : Kernel) (e te : Nat), k.running = true →
      total ≤ e + fuel * tick →
      ∃ stats k2, Kernel.runForLoop (fuel + 1) k total tick e te = some (stats, k2) ∧
        total ≤ stats.total_us := by
  intro fuel
  induction fuel with
  | zero =>
      intro k e te hr hle
      have hg : ¬ (e < total ∧ k.running = true) := by
        intro hc
        have h2 := hc.1
        omega
      unfold Kernel.runForLoop
      rw [if_neg hg]
      refine ⟨_, _, rfl, ?_⟩
      show total ≤ e
      omega
  | succ fuel ih =>
      intro k e te hr hle
      by_cases hg : e < total ∧ k.running = true
      · unfold Kernel.runForLoop
        rw [if_pos hg]
        have hr2 : ((k.tick tick).2).running = true := by
          rw [Kernel_tick_running]
          exact hr
        have hle2 : total ≤ (e + tick) + fuel * tick := by
          have he : e + (fuel + 1) * tick = e + tick + fuel * tick := by ring
          omega
        exact ih (k.tick tick).2 (e + tick) _ hr2 hle2
      · unfold Kernel.runForLoop
        rw [if_neg hg]
        refine ⟨_, _, rfl, ?_⟩
        show total ≤ e
        rcases Nat.lt_or_ge e total with h | h
        · exact absurd ⟨h, hr⟩ hg
        · omega

/-- Exact characterization of the loop when it runs m full iterations:
final elapsed e + m * tick, m ticks counted, timer advanced by m * tick
modulo 2^64. -/
lemma runForLoop_exact (total tick : Nat) :
    ∀ (m : Nat), ∀ (fuel : Nat) (k : Kernel) (e te : Nat), m ≤ fuel →
      k.running = true → k.timer.ticks_us < U64_MOD →
      total ≤ e + m * tick → (∀ j, j < m → e + j * tick < total) →
      ∃ stats k2, Kernel.runForLoop (fuel + 1) k total tick e te = some (stats, k2) ∧
        stats.total_us = e + m * tick ∧
        k2.total_ticks = k.total_ticks + m ∧
        k2.timer.ticks_us = (k.timer.ticks_us + m * tick) % U64_MOD := by
  intro m
  induction m with
  | zero =>
      intro fuel k e te hmf hr htk hle hmin
      have hg : ¬ (e < total ∧ k.running = true) := by
        intro hc
        have h2 := hc.1
        omega
      unfold Kernel.runForLoop
      rw [if_neg hg]
      refine ⟨_, _, rfl, ?_, ?_, ?_⟩
      · show e = e + 0 * tick
        omega
      · show k.total_ticks = k.total_ticks + 0
        omega
      · show k.timer.ticks_us = (k.timer.ticks_us + 0 * tick) % U64_MOD
        rw [Nat.zero_mul, Nat.add_zero, Nat.mod_eq_of_lt htk]
  | succ m ih =>
      intro fuel k e te hmf hr htk hle hmin
      have hg : e < total ∧ k.running = true := by
        refine ⟨?_, hr⟩
        have := hmin 0 (by omega)
        omega
      obtain ⟨f, rfl⟩ : ∃ f, fuel = f + 1 := ⟨fuel - 1, by omega⟩
      unfold Kernel.runForLoop
      rw [if_pos hg]
      have hr2 : ((k.tick tick).2).running = true := by
        rw [Kernel_tick_running]
        exact hr
      have htk2 : ((k.tick tick).2).timer.ticks_us < U64_MOD := by
        rw [Kernel_tick_timer]
        exact Nat.mod_lt _ (by decide)
      have hle2 : total ≤ (e + tick) + m * tick := by
        have he : e + (m + 1) * tick = e + tick + m * tick := by ring
        omega
      have hmin2 : ∀ j, j < m → (e + tick) + j * tick < total := by
        intro j hj
        have h3 := hmin (j + 1) (by omega)
        have he : e + (j + 1) * tick = e + tick + j * tick := by ring
        omega
      obtain ⟨stats, k2, hrun, hs1, hs2, hs3⟩ :=
        ih f (k.tick tick).2 (e + tick)
          (te + if (k.tick tick).1.isSome then 1 else 0) (by omega) hr2 htk2 hle2 hmin2
      refine ⟨stats, k2, hrun, ?_, ?_, ?_⟩
      · rw [hs1]
        ring
      · rw [hs2, Kernel_tick_total_ticks]
        omega
      · rw [hs3, Kernel_tick_timer, Nat.mod_add_mod,
            show k.timer.ticks_us + tick + m * tick
              = k.timer.ticks_us + (m + 1) * tick from by ring]

/-! ### Claim theorems: kernel run loop -/

/-- C6, counterexample to the claim as stated: run_for(1, 0) never
terminates.  Each iteration adds tick_us = 0 to elapsed, the guard
elapsed < total_us stays true, and no stop() occurs, so no amount of
fuel makes the loop return. -/
theorem C6_counterexample :
    ¬ ∃ (fuel : Nat) (out : KernelStats × Kernel),
        Kernel.testing.run_for 1 0 fuel = some out := by
  rintro ⟨fuel, out, hout⟩
  unfold Kernel.run_for at hout
  rw [runForLoop_zero_tick 1 fuel { Kernel.testing with running := true } 0 0 rfl
    (by omega)] at hout
  exact Option.noConfusion hout

/-- C6 (amended): for every kernel state and total_us, and every
tick_us ≥ 1, run_for(total_us, tick_us) terminates without an external
stop() — total_us + 1 loop iterations always suffice — and it returns
once the accumulated elapsed time (incremented by exactly tick_us per
iteration) reaches at least total_us.  With tick_us = 0 and
total_us > 0 it never returns. -/
theorem C6_amended (k : Kernel) (total_us tick_us : Nat) (ht : 1 ≤ tick_us) :
    ∃ stats k2, k.run_for total_us tick_us (total_us + 1) = some (stats, k2) ∧
      total_us ≤ stats.total_us := by
  have hfuel : total_us ≤ 0 + total_us * tick_us := by
    have h2 : total_us * 1 ≤ total_us * tick_us :=
      Nat.mul_le_mul_left total_us ht
    omega
  have h := runForLoop_term total_us tick_us total_us
    { k with running := true } 0 0 rfl hfuel
  exact h

/-- Witness for C6 at the testing kernel, total 5, tick 2. -/
theorem C6_witness :
    1 ≤ 2 ∧
    (∃ stats k2, Kernel.testing.run_for 5 2 (5 + 1) = some (stats, k2) ∧
      5 ≤ stats.total_us) :=
  ⟨by norm_num, C6_amended Kernel.testing 5 2 (by norm_num)⟩

/-- C10: with positive total_us and tick_us (and no stop), run_for
returns stats whose total_us is the least multiple of tick_us that is at
least the requested total_us (characterized by: divisible by tick_us, at
least total_us, and less than total_us + tick_us); when tick_us does not
divide total_us this strictly exceeds the budget; the kernel clock
advances by that amount (modulo 2^64, the timer wraps by design) and
total_ticks advances by that amount divided by tick_us. -/
theorem C10_run_for (k : Kernel) (total_us tick_us : Nat)
    (h1 : 0 < total_us) (h2 : 0 < tick_us) (hk : k.timer.ticks_us < U64_MOD) :
    ∃ stats k2, k.run_for total_us tick_us (total_us + 1) = some (stats, k2) ∧
      stats.total_us % tick_us = 0 ∧
      total_us ≤ stats.total_us ∧
      stats.total_us < total_us + tick_us ∧
      (¬ tick_us ∣ total_us → total_us < stats.total_us) ∧
      k2.timer.ticks_us = (k.timer.ticks_us + stats.total_us) % U64_MOD ∧
      k2.total_ticks = k.total_ticks + stats.total_us / tick_us := by
  have hdm : tick_us * (total_us / tick_us) + total_us % tick_us = total_us :=
    Nat.div_add_mod total_us tick_us
  have hrlt : total_us % tick_us < tick_us := Nat.mod_lt _ h2
  have hqt : (total_us / tick_us) * tick_us = total_us - total_us % tick_us := by
    rw [mul_comm]
    omega
  by_cases h0 : total_us % tick_us = 0
  · -- tick_us divides total_us: exactly total_us / tick_us iterations
    have hqt2 : (total_us / tick_us) * tick_us = total_us := by omega
    have hle : total_us ≤ 0 + (total_us / tick_us) * tick_us := by omega
    have hmin : ∀ j, j < total_us / tick_us → 0 + j * tick_us < total_us := by
      intro j hj
      have hjt : j * tick_us ≤ (total_us / tick_us - 1) * tick_us :=
        Nat.mul_le_mul_right _ (by omega)
      have hsub : (total_us / tick_us - 1) * tick_us
          = (total_us / tick_us) * tick_us - tick_us := by
        rw [Nat.sub_mul, one_mul]
      omega
    obtain ⟨stats, k2, hrun, hs1, hs2, hs3⟩ :=
      runForLoop_exact total_us tick_us (total_us / tick_us) total_us
        { k with running := true } 0 0 (Nat.div_le_self total_us tick_us) rfl hk hle hmin
    refine ⟨stats, k2, hrun, ?_, ?_, ?_, ?_, ?_, ?_⟩
    · rw [hs1, Nat.zero_add, Nat.mul_mod_left]
    · rw [hs1]
      omega
    · rw [hs1]
      omega
    · intro hnd
      exact absurd (Nat.dvd_iff_mod_eq_zero.mpr h0) hnd
    · rw [hs3, hs1, Nat.zero_add]
    · rw [hs2, hs1, Nat.zero_add, Nat.mul_div_cancel _ h2]
  · -- tick_us does not divide total_us: total_us / tick_us + 1 iterations
    have hM : (total_us / tick_us + 1) * tick_us
        = (total_us / tick_us) * tick_us + tick_us := by ring
    have hle : total_us ≤ 0 + (total_us / tick_us + 1) * tick_us := by omega
    have hmin : ∀ j, j < total_us / tick_us + 1 → 0 + j * tick_us < total_us := by
      intro j hj
      have hjt : j * tick_us ≤ (total_us / tick_us) * tick_us :=
        Nat.mul_le_mul_right _ (by omega)
      omega
    have hmtot : total_us / tick_us + 1 ≤ total_us := by
      have ht2 : 2 ≤ tick_us := by omega
      have h3 : (total_us / tick_us) * 2 ≤ (total_us / tick_us) * tick_us :=
        Nat.mul_le_mul_left _ ht2
      omega
    obtain ⟨stats, k2, hrun, hs1, hs2, hs3⟩ :=
      runForLoop_exact total_us tick_us (total_us / tick_us + 1) total_us
        { k with running := true } 0 0 hmtot rfl hk hle hmin
    refine ⟨stats, k2, hrun, ?_, ?_, ?_, ?_, ?_, ?_⟩
    · rw [hs1, Nat.zero_add, Nat.mul_mod_left]
    · rw [hs1]
      omega
    · rw [hs1]
      omega
    · intro _
      rw [hs1]
      omega
    · rw [hs3, hs1, Nat.zero_add]
    · rw [hs2, hs1, Nat.zero_add, Nat.mul_div_cancel _ h2]

/-- Witness for C10 at the testing kernel, total 5, tick 2. -/
theorem C10_witness :
    0 < 5 ∧ 0 < 2 ∧ Kernel.testing.timer.ticks_us < U64_MOD ∧
    (∃ stats k2, Kernel.testing.run_for 5 2 (5 + 1) = some (stats, k2) ∧
      stats.total_us % 2 = 0 ∧
      5 ≤ stats.total_us ∧
      stats.total_us < 5 + 2 ∧
      (¬ 2 ∣ 5 → 5 < stats.total_us) ∧
      k2.timer.ticks_us = (Kernel.testing.timer.ticks_us + stats.total_us) % U64_MOD ∧
      k2.total_ticks = Kernel.testing.total_ticks + stats.total_us / 2) :=
  ⟨by norm_num, by norm_num, by decide,
   C10_run_for Kernel.testing 5 2 (by norm_num) (by norm_num) (by decide)⟩

end ALICE
